import Mathlib

/-!
# Verification of the Bob's Corn purchase path

Shallow embedding of the order-purchase subsystem of the Bob's Corn backend
(`server/controllers/ordersController.ts`), together with the database rows it
touches (`orders`, `order_items`, `users`, `products` from `server/db.ts`).

Modelling conventions:
* SQLite datetimes are modelled as an integer timeline (seconds).  The SQL
  comparison `o.created_at >= datetime('now', '-W seconds')` on ISO datetime
  strings is chronological, so it becomes `now - W ≤ created_at` on integers.
* JavaScript numbers that the controller keeps integral (cents, quantities,
  ids, parsed configuration) are modelled as `Int`/`Nat`.  `Math.round(x)` on
  an exact decimal value `num/den` is `⌊(2*num + den) / (2*den)⌋` (round half
  towards `+∞`), which agrees with the double-precision computation on the
  magnitudes the program handles (prices fit in a `decimal(10,2)` column).
* Monetary values cross the API boundary through `toNumber2`, i.e.
  `Math.round(Number(v)*100)/100`; the model carries the numerator
  `Math.round(Number(v)*100)` (the cent value), the final division by 100
  being exact at 2 decimals.
-/

namespace BobsCorn

/-! ## Decimal strings: `priceToCents`, `centsToDecimalString`, `toNumber2` -/

/-- The decimal digit character for `n % 10`-style arguments. -/
def digitChar : Nat → Char
  | 0 => '0' | 1 => '1' | 2 => '2' | 3 => '3' | 4 => '4'
  | 5 => '5' | 6 => '6' | 7 => '7' | 8 => '8' | _ => '9'

/-- Numeric value of a digit character (`c.toNat - 48`). -/
def charDigitVal (c : Char) : Nat := c.toNat - 48

/-- Value of a list of digit characters, most significant first. -/
def digitsVal (cs : List Char) : Nat :=
  cs.foldl (fun a c => a * 10 + charDigitVal c) 0

/-- Digit extraction with explicit fuel (structural recursion, so that closed
terms reduce in the kernel); `fuel > n` always suffices. -/
def natReprAux : Nat → Nat → List Char
  | 0, _ => []
  | fuel + 1, n =>
    if n < 10 then [digitChar n]
    else natReprAux fuel (n / 10) ++ [digitChar (n % 10)]

/-- Decimal representation of a natural number (the digits `toFixed` /
string conversion produces). -/
def natRepr (n : Nat) : List Char := natReprAux (n + 1) n

/-- Source `centsToDecimalString`: `(cents / 100).toFixed(2)` — the exact
2-decimal rendering of a cent amount. -/
def centsToDecimalString (cents : Int) : String :=
  let a := cents.natAbs
  let core := natRepr (a / 100) ++ '.' :: digitChar (a % 100 / 10) :: [digitChar (a % 100 % 10)]
  if cents < 0 then ⟨'-' :: core⟩ else ⟨core⟩

/-- Parse an unsigned decimal literal `digits ['.' digits]`, returning the
numerator and the number of fractional digits.  Mirrors what `Number(...)`
accepts on the strings this program feeds it (DB `decimal(10,2)` values and
`centsToDecimalString` output). -/
def parseUnsignedDecimal (cs : List Char) : Option (Nat × Nat) :=
  let ds1 := cs.takeWhile Char.isDigit
  let rest := cs.dropWhile Char.isDigit
  match rest with
  | [] => if ds1.isEmpty then none else some (digitsVal ds1, 0)
  | '.' :: rest2 =>
    let ds2 := rest2.takeWhile Char.isDigit
    let rest3 := rest2.dropWhile Char.isDigit
    if rest3.isEmpty && !(ds1.isEmpty && ds2.isEmpty) then
      some (digitsVal ds1 * 10 ^ ds2.length + digitsVal ds2, ds2.length)
    else none
  | _ => none

/-- Signed decimal literal: value is `num / 10^k` for result `(num, k)`. -/
def parseDecimal (s : String) : Option (Int × Nat) :=
  match s.toList with
  | [] => none
  | c :: rest =>
    if c = '-' then (parseUnsignedDecimal rest).map (fun p => (-(p.1 : Int), p.2))
    else if c = '+' then (parseUnsignedDecimal rest).map (fun p => ((p.1 : Int), p.2))
    else (parseUnsignedDecimal (c :: rest)).map (fun p => ((p.1 : Int), p.2))

/-- Source `priceToCents`: `Math.round(Number(value) * 100)`.  On the exact
decimal value `num/10^k` this is `⌊(num*100 + 10^k/2) / 10^k⌋`, computed here
without intermediate rounding.  Strings outside the decimal grammar (which the
program never produces) map to 0. -/
def priceToCents (s : String) : Int :=
  match parseDecimal s with
  | some (num, k) => Int.fdiv (2 * num * 100 + 10 ^ k) (2 * 10 ^ k)
  | none => 0

/-- Source `toNumber2` (`Math.round(Number(v)*100)/100`), modelled by its
exact cent numerator. -/
def toNumber2Cents (s : String) : Int := priceToCents s

/-! ## Data model

Rows of the four tables the purchase path touches, as created by
`server/db.ts` (`users`, `products`, `orders`, `order_items`), plus the
request/response shapes of `server/types/index.ts`. -/

/-- A `products` row (the columns the purchase path reads).  `price` is the
`decimal(10,2)` column, carried as its decimal string. -/
structure Product where
  id : Nat
  slug : String
  title : String
  price : String
deriving Repr, DecidableEq

/-- One element of `PurchaseRequest.items`.  `slug`/`productId` are `some`
exactly when the corresponding key is present on the JSON object (the source
tests `'slug' in it` / `'productId' in it`).  `quantity` models
`Number(it.quantity)`; non-integral payloads, which the source rejects via
`Number.isInteger`, are outside the embedding. -/
structure RequestItem where
  slug : Option String
  productId : Option Nat
  quantity : Int
deriving Repr, DecidableEq

/-- The request body of `POST /api/orders/purchase`.  The shipping address is
carried as its JSON text (`JSON.stringify`/`JSON.parse` round-trip). -/
structure PurchaseBody where
  items : List RequestItem
  shippingAddress : Option String
  saveAddress : Bool
deriving Repr, DecidableEq

/-- Source `ProcessingOrderItem`: the snapshot built for each request line. -/
structure ProcessingOrderItem where
  product_id : Nat
  slug : String
  title : String
  price : String
  quantity : Int
deriving Repr, DecidableEq

/-- An `orders` row.  `created_at` (`datetime('now')` at commit) is modelled
on the integer timeline. -/
structure OrderRow where
  id : Nat
  user_id : Nat
  total : String
  shipping_address : Option String
  status : String
  created_at : Int
deriving Repr, DecidableEq

/-- An `order_items` row. -/
structure OrderItemRow where
  order_id : Nat
  product_id : Nat
  slug : String
  title : String
  price : String
  quantity : Int
deriving Repr, DecidableEq

/-- A `users` row (the columns the purchase path touches). -/
structure UserRow where
  id : Nat
  address : Option String
deriving Repr, DecidableEq

/-- The SQLite database as seen by the orders controller.  `nextOrderId` is
the `orders` autoincrement counter. -/
structure Db where
  users : List UserRow
  products : List Product
  orders : List OrderRow
  orderItems : List OrderItemRow
  nextOrderId : Nat
deriving Repr, DecidableEq

/-- The two environment variables the purchase endpoint reads. -/
structure Env where
  purchaseRateLimitPerProduct : Option String
  purchaseRateLimitWindowSeconds : Option String
deriving Repr, DecidableEq

/-- One line of the 201 response body (`OrderResponse.items`).  `priceCents`
carries the numerator of `toNumber2(oi.price)` (see module comment). -/
structure ResponseItem where
  productId : Nat
  slug : String
  title : String
  priceCents : Int
  quantity : Int
deriving Repr, DecidableEq

/-- The 201 response body (`OrderResponse`).  `totalCents` carries the
numerator of `toNumber2(total)`. -/
structure OrderResponse where
  id : Nat
  userId : Nat
  totalCents : Int
  status : String
  createdAt : Int
  shippingAddress : Option String
  items : List ResponseItem
deriving Repr, DecidableEq

/-- Body of the 429 rate-limit response. -/
structure RateLimitBody where
  limit : Int
  windowSeconds : Int
  productId : Nat
  slug : Option String
  requestedQuantity : Int
  recentPurchasedQuantity : Int
deriving Repr, DecidableEq

/-- Outcome of the purchase endpoint, keyed by HTTP status:
`badRequest` is 400 `{error}`, `productNotFound` is the 400
`Product not found for <identifier>` response, `rateLimited` is 429,
`created` is 201 `{order}`. -/
inductive PurchaseOutcome where
  | badRequest (error : String)
  | productNotFound (identifier : String)
  | rateLimited (body : RateLimitBody)
  | created (order : OrderResponse)
deriving Repr, DecidableEq

/-! ## The purchase endpoint (`ordersController.purchase`) -/

/-- The item-validation loop: first failing item wins.  An item must carry a
`slug` or `productId` key and a positive integral quantity. -/
def validateItems : List RequestItem → Nat → Option String
  | [], _ => none
  | it :: rest, i =>
    if it.slug = none ∧ it.productId = none then
      some ("Item " ++ toString i ++ " must include slug or productId")
    else if it.quantity ≤ 0 then
      some ("Item " ++ toString i ++ " has invalid quantity")
    else validateItems rest (i + 1)

/-- `bySlug.get(String(it.slug))` — the products fetched by the batch query
include every product matching a requested slug, and slugs are unique
(`t.string('slug').notNullable().unique()`), so lookup in the full catalog is
equivalent. -/
def findBySlug (products : List Product) (s : String) : Option Product :=
  products.find? (fun p => p.slug == s)

/-- `byId.get(Number(it.productId))`; ids are the primary key. -/
def findById (products : List Product) (pid : Nat) : Option Product :=
  products.find? (fun p => p.id == pid)

/-- Resolution of one request item, `if ('slug' in it && it.slug) ... else
byId.get(Number(it.productId))`: a present, truthy (non-empty) slug is looked
up by slug, otherwise the id path is taken (an absent `productId` makes
`Number(undefined)` a failed lookup). -/
def resolveItem (products : List Product) (it : RequestItem) : Option Product :=
  match it.slug with
  | some s =>
    if s ≠ "" then findBySlug products s
    else
      match it.productId with
      | some pid => findById products pid
      | none => none
  | none =>
    match it.productId with
    | some pid => findById products pid
    | none => none

/-- The identifier reported in the `Product not found` error:
`('slug' in it && it.slug) ? it.slug : it.productId`. -/
def itemIdentifier (it : RequestItem) : String :=
  let pidIdent := match it.productId with
    | some pid => toString pid
    | none => "undefined"
  match it.slug with
  | some s => if s ≠ "" then s else pidIdent
  | none => pidIdent

/-- The snapshot-building loop: resolves each item in order and captures
`{product_id, slug, title, price: centsToDecimalString(priceToCents(row.price)),
quantity}`; the first unresolved reference aborts with its identifier. -/
def buildOrderItems (products : List Product) :
    List RequestItem → Except String (List ProcessingOrderItem)
  | [] => .ok []
  | it :: rest =>
    match resolveItem products it with
    | none => .error (itemIdentifier it)
    | some row =>
      match buildOrderItems products rest with
      | .error e => .error e
      | .ok tail =>
        .ok ({ product_id := row.id, slug := row.slug, title := row.title,
               price := centsToDecimalString (priceToCents row.price),
               quantity := it.quantity } :: tail)

/-- `Number.parseInt(s, 10)` on the strings at hand: optional leading spaces
and sign, then a leading digit run; `none` (JS `NaN`) when no digit leads. -/
def parseIntJs (s : String) : Option Int :=
  let leadingNat : List Char → Option Nat := fun cs =>
    let ds := cs.takeWhile Char.isDigit
    if ds.isEmpty then none else some (digitsVal ds)
  let cs := s.toList.dropWhile (fun c => c == ' ')
  match cs with
  | '-' :: rest => (leadingNat rest).map (fun n => -(n : Int))
  | '+' :: rest => (leadingNat rest).map (fun n => (n : Int))
  | _ => (leadingNat cs).map (fun n => (n : Int))

/-- `Number.isFinite(parsed) && parsed > 0 ? parsed : dflt` over
`Number.parseInt(env ?? '', 10)`. -/
def parsePositiveOr (e : Option String) (dflt : Int) : Int :=
  match parseIntJs (e.getD "") with
  | some n => if 0 < n then n else dflt
  | none => dflt

/-- Effective `limitPerProduct` (env `PURCHASE_RATE_LIMIT_PER_PRODUCT`,
default 1). -/
def limitPerProduct (env : Env) : Int :=
  parsePositiveOr env.purchaseRateLimitPerProduct 1

/-- Effective `windowSeconds` (env `PURCHASE_RATE_LIMIT_WINDOW_SECONDS`,
default 60). -/
def windowSecondsEff (env : Env) : Int :=
  parsePositiveOr env.purchaseRateLimitWindowSeconds 60

/-- `requestedQtyByProductId.set(pid, (get(pid) || 0) + qty)`: a JS `Map`
keeps the first-insertion position and accumulates in place. -/
def addQty (acc : List (Nat × Int)) (pid : Nat) (q : Int) : List (Nat × Int) :=
  match acc with
  | [] => [(pid, q)]
  | (p, v) :: rest => if p == pid then (p, v + q) :: rest else (p, v) :: addQty rest pid q

/-- Aggregation of requested quantities by product id, in first-occurrence
order (the JS `Map` iteration order of the rate-limit loop). -/
def aggregate (ois : List ProcessingOrderItem) : List (Nat × Int) :=
  ois.foldl (fun acc oi => addQty acc oi.product_id oi.quantity) []

/-- Does the order item row join a recent order of this user?  Models the
`order_items JOIN orders` condition of the windowed query:
`o.id = oi.order_id AND o.user_id = ? AND o.created_at >= datetime('now', '-W seconds')`
(the boundary is inclusive). -/
def joinsRecentOrder (orders : List OrderRow) (userId : Nat) (now w : Int)
    (oi : OrderItemRow) : Bool :=
  orders.any (fun o => o.id == oi.order_id && o.user_id == userId &&
    decide (now - w ≤ o.created_at))

/-- The windowed query's per-product sum: total `oi.quantity` of this user's
order items for `pid` whose parent order is inside the trailing window. -/
def windowSum (orders : List OrderRow) (items : List OrderItemRow)
    (userId : Nat) (pid : Nat) (now w : Int) : Int :=
  ((items.filter (fun oi => oi.product_id == pid &&
      joinsRecentOrder orders userId now w oi)).map (fun oi => oi.quantity)).sum

/-- The rate-limit loop: the first aggregated product whose windowed prior
plus requested quantity strictly exceeds the limit yields the 429 body. -/
def rateCheck (db : Db) (userId : Nat) (limit w : Int) (agg : List (Nat × Int))
    (orderItems : List ProcessingOrderItem) (now : Int) : Option RateLimitBody :=
  agg.findSome? (fun pq =>
    let prior := windowSum db.orders db.orderItems userId pq.1 now w
    if prior + pq.2 > limit then
      some { limit := limit, windowSeconds := w, productId := pq.1,
             slug := (orderItems.find? (fun x => x.product_id == pq.1)).map (fun x => x.slug),
             requestedQuantity := pq.2, recentPurchasedQuantity := prior }
    else none)

/-- Shipping-address resolution: an explicit request address wins, otherwise
the user's saved address (stored as JSON text) is used. -/
def resolveShipping (db : Db) (userId : Nat) (reqAddr : Option String) : Option String :=
  match reqAddr with
  | some a => some a
  | none =>
    match db.users.find? (fun u => u.id == userId) with
    | some u => u.address
    | none => none

/-- `knex('users').update({address})` when `saveAddress` was requested. -/
def saveUserAddress (db : Db) (userId : Nat) (addr : String) : Db :=
  { db with users := db.users.map (fun u =>
      if u.id == userId then { u with address := some addr } else u) }

/-- `orderItems.reduce((sum, oi) => sum + priceToCents(oi.price) * oi.quantity, 0)`. -/
def totalCentsOf (ois : List ProcessingOrderItem) : Int :=
  ois.foldl (fun s oi => s + priceToCents oi.price * oi.quantity) 0

/-- The success path after the rate check: total in integer cents, address
side effect, then the transactional insert of the order header and its line
rows, and the mirrored 201 body.  `created_at` (DB `datetime('now')`) and the
response's `new Date()` are the same instant `now` of this sequential call. -/
def purchaseCommit (db : Db) (userId : Nat) (body : PurchaseBody)
    (ois : List ProcessingOrderItem) (now : Int) : PurchaseOutcome × Db :=
  let totalCents := totalCentsOf ois
  let total := centsToDecimalString totalCents
  let ship := resolveShipping db userId body.shippingAddress
  let db1 := match ship with
    | some a => if body.saveAddress then saveUserAddress db userId a else db
    | none => db
  let oid := db1.nextOrderId
  let orderRow : OrderRow :=
    { id := oid, user_id := userId, total := total, shipping_address := ship,
      status := "paid", created_at := now }
  let itemRows := ois.map (fun oi =>
    ({ order_id := oid, product_id := oi.product_id, slug := oi.slug,
       title := oi.title, price := oi.price, quantity := oi.quantity } : OrderItemRow))
  let db2 := { db1 with
    orders := db1.orders ++ [orderRow],
    orderItems := db1.orderItems ++ itemRows,
    nextOrderId := oid + 1 }
  let resp : OrderResponse :=
    { id := oid, userId := userId, totalCents := toNumber2Cents total,
      status := "paid", createdAt := now, shippingAddress := ship,
      items := ois.map (fun oi =>
        { productId := oi.product_id, slug := oi.slug, title := oi.title,
          priceCents := toNumber2Cents oi.price, quantity := oi.quantity }) }
  (.created resp, db2)

/-- The purchase endpoint for an authenticated user: validation, product
resolution, config parse, aggregation, rate check, then commit. -/
def purchase (env : Env) (db : Db) (userId : Nat) (body : PurchaseBody)
    (now : Int) : PurchaseOutcome × Db :=
  if body.items.isEmpty then (.badRequest "Items required", db)
  else
    match validateItems body.items 0 with
    | some msg => (.badRequest msg, db)
    | none =>
      match buildOrderItems db.products body.items with
      | .error ident => (.productNotFound ident, db)
      | .ok ois =>
        match rateCheck db userId (limitPerProduct env) (windowSecondsEff env)
            (aggregate ois) ois now with
        | some rl => (.rateLimited rl, db)
        | none => purchaseCommit db userId body ois now

/-! ## The getOrder endpoint (`ordersController.getOrder`) -/

/-- Outcome of `GET /api/orders/:id`: `notFound` is the 404
`{error: 'Order not found'}` response. -/
inductive GetOrderOutcome where
  | notFound
  | ok (order : OrderResponse)
deriving Repr, DecidableEq

/-- `getOrder`: the order is fetched with the user-id check in the `where`
clause, so a missing order and another user's order take the same branch. -/
def getOrder (db : Db) (userId : Nat) (orderId : Nat) : GetOrderOutcome :=
  match db.orders.find? (fun o => o.id == orderId && o.user_id == userId) with
  | none => .notFound
  | some o =>
    .ok { id := o.id, userId := o.user_id, totalCents := toNumber2Cents o.total,
          status := o.status, createdAt := o.created_at,
          shippingAddress := o.shipping_address,
          items := (db.orderItems.filter (fun it => it.order_id == o.id)).map (fun it =>
            { productId := it.product_id, slug := it.slug, title := it.title,
              priceCents := toNumber2Cents it.price, quantity := it.quantity }) }


/-! ## Observers, traces, and the unguarded race -/

/-- Total requested quantity of `pid` among the built line snapshots. -/
def sumQty (ois : List ProcessingOrderItem) (pid : Nat) : Int :=
  ((ois.filter (fun oi => oi.product_id == pid)).map (fun oi => oi.quantity)).sum

/-- Lookup in an aggregation list (`map.get(pid) || 0`). -/
def aggLookup : List (Nat × Int) → Nat → Int
  | [], _ => 0
  | (k, v) :: rest, pid => if k = pid then v else aggLookup rest pid

/-- Total quantity of `pid` among persisted `order_items` rows. -/
def rowsSumQty (rs : List OrderItemRow) (pid : Nat) : Int :=
  ((rs.filter (fun r => r.product_id == pid)).map (fun r => r.quantity)).sum

/-- Modelled from the spec: "Compute total as the sum of unit price x
quantity across all lines, in integer cents."  Stated directly over the
request items and the catalog, to be compared with the total the
implementation stores and returns. -/
def spec_totalCents (products : List Product) (items : List RequestItem) : Int :=
  items.foldl (fun s it =>
    match resolveItem products it with
    | some p => s + priceToCents p.price * it.quantity
    | none => s) 0

/-- One purchase call of a sequential trace. -/
structure Attempt where
  userId : Nat
  body : PurchaseBody
  now : Int
deriving Repr, DecidableEq

/-- Run a sequence of purchase calls against the database. -/
def runTrace (env : Env) (db : Db) : List Attempt → Db
  | [] => db
  | a :: rest => runTrace env (purchase env db a.userId a.body a.now).2 rest

/-- All `order_items` rows have positive quantity and reference an already
allocated order id; all order ids are below the autoincrement counter.
Holds for every database the purchase endpoint produces from an empty
ledger. -/
def GoodDb (db : Db) : Prop :=
  (∀ oi ∈ db.orderItems, 0 < oi.quantity ∧ oi.order_id < db.nextOrderId) ∧
  (∀ o ∈ db.orders, o.id < db.nextOrderId)

/-- Every user's windowed per-product total, seen at time `t`, is within the
configured limit. -/
def WindowBounded (env : Env) (db : Db) (t : Int) : Prop :=
  ∀ U P : Nat,
    windowSum db.orders db.orderItems U P t (windowSecondsEff env) ≤ limitPerProduct env

/-- Two concurrent purchase calls by the same user interleaved as the source
permits: nothing orders the two handlers' awaited steps, so both windowed
SELECTs can resolve against the same initial database before either
`knex.transaction` INSERT commits; afterwards both commits apply.  `none`
when the interleaving at issue is not reached (resolution fails or a check
rejects). -/
def purchaseRacePair (env : Env) (db : Db) (userId : Nat) (body : PurchaseBody)
    (now : Int) : Option Db :=
  match buildOrderItems db.products body.items with
  | .error _ => none
  | .ok ois =>
    let check1 := rateCheck db userId (limitPerProduct env) (windowSecondsEff env)
      (aggregate ois) ois now
    let check2 := rateCheck db userId (limitPerProduct env) (windowSecondsEff env)
      (aggregate ois) ois now
    match check1, check2 with
    | none, none =>
      let db1 := (purchaseCommit db userId body ois now).2
      some (purchaseCommit db1 userId body ois now).2
    | _, _ => none

/-! ## Concrete fixtures -/

/-- Environment with neither rate-limit variable set: limit 1 per 60 s. -/
def envDefault : Env := { purchaseRateLimitPerProduct := none, purchaseRateLimitWindowSeconds := none }

def prodCorn : Product := { id := 1, slug := "corn", title := "Golden Corn", price := "5.99" }

def prodBeans : Product := { id := 2, slug := "beans", title := "Butter Beans", price := "2.50" }

/-- Fresh store: one registered user (id 7), corn on the shelf, no orders. -/
def dbCorn : Db :=
  { users := [{ id := 7, address := none }], products := [prodCorn],
    orders := [], orderItems := [], nextOrderId := 1 }

def itemCorn (q : Int) : RequestItem := { slug := some "corn", productId := none, quantity := q }

def bodyCorn : PurchaseBody := { items := [itemCorn 1], shippingAddress := none, saveAddress := false }

/-- Same product referenced twice, quantity 1 each. -/
def bodyCornTwice : PurchaseBody :=
  { items := [itemCorn 1, itemCorn 1], shippingAddress := none, saveAddress := false }

/-- One resolvable and one dangling reference. -/
def bodyMixed : PurchaseBody :=
  { items := [itemCorn 1, { slug := some "unobtainium", productId := none, quantity := 1 }],
    shippingAddress := none, saveAddress := false }

/-- Catalog with cent-sensitive prices 0.10 / 0.20 / 0.30. -/
def dbPenny : Db :=
  { users := [{ id := 7, address := none }],
    products := [{ id := 1, slug := "a", title := "A", price := "0.10" },
                 { id := 2, slug := "b", title := "B", price := "0.20" },
                 { id := 3, slug := "c", title := "C", price := "0.30" }],
    orders := [], orderItems := [], nextOrderId := 1 }

def bodyPenny : PurchaseBody :=
  { items := [{ slug := some "a", productId := none, quantity := 1 },
              { slug := some "b", productId := none, quantity := 1 },
              { slug := some "c", productId := none, quantity := 1 }],
    shippingAddress := none, saveAddress := false }

def bodyPennyTwo : PurchaseBody :=
  { items := [{ slug := some "a", productId := none, quantity := 1 },
              { slug := some "b", productId := none, quantity := 1 }],
    shippingAddress := none, saveAddress := false }

/-- Environment raising the limit to 3 per 60 s, so `bodyPenny` passes. -/
def envLimit3 : Env :=
  { purchaseRateLimitPerProduct := some "3", purchaseRateLimitWindowSeconds := none }

def db2Penny : Db := (purchase envLimit3 dbPenny 7 bodyPenny 0).2

def respPenny : OrderResponse :=
  match (purchase envLimit3 dbPenny 7 bodyPenny 0).1 with
  | .created r => r
  | _ => { id := 0, userId := 0, totalCents := 0, status := "", createdAt := 0,
           shippingAddress := none, items := [] }

def db2Corn : Db := (purchase envDefault dbCorn 7 bodyCorn 0).2

def respCorn : OrderResponse :=
  match (purchase envDefault dbCorn 7 bodyCorn 0).1 with
  | .created r => r
  | _ => { id := 0, userId := 0, totalCents := 0, status := "", createdAt := 0,
           shippingAddress := none, items := [] }


/-- The committed order row of `bodyCorn` at `t = 0` (for boundary checks). -/
def ordA : OrderRow :=
  { id := 1, user_id := 7, total := "5.99", shipping_address := none,
    status := "paid", created_at := 0 }

/-- Its line-item row. -/
def itemA : OrderItemRow :=
  { order_id := 1, product_id := 1, slug := "corn", title := "Golden Corn",
    price := "5.99", quantity := 1 }

/-- The database after the two interleaved commits of the race. -/
def dbRaced : Db := (purchaseRacePair envDefault dbCorn 7 bodyCorn 0).getD dbCorn

/-- Environment with a valid limit and an unparsable window value. -/
def envFiveBogus : Env :=
  { purchaseRateLimitPerProduct := some "5", purchaseRateLimitWindowSeconds := some "bogus" }

/-- The 201 body of re-buying corn at `t = 61`, after the `t = 0` purchase. -/
def respCorn61 : OrderResponse :=
  { id := 2, userId := 7, totalCents := 599, status := "paid", createdAt := 61,
    shippingAddress := none,
    items := [{ productId := 1, slug := "corn", title := "Golden Corn",
                priceCents := 599, quantity := 1 }] }


/-! ## Lemma layer -/

/-! ### Round-trip: parsing back a formatted cent amount recovers it -/

theorem digitChar_isDigit (n : Nat) : (digitChar n).isDigit = true := by
  unfold digitChar
  split <;> decide

theorem charDigitVal_digitChar {n : Nat} (h : n < 10) :
    charDigitVal (digitChar n) = n := by
  interval_cases n <;> decide

theorem digitsVal_append (l1 l2 : List Char) :
    digitsVal (l1 ++ l2) =
      l2.foldl (fun a c => a * 10 + charDigitVal c) (digitsVal l1) := by
  simp [digitsVal, List.foldl_append]

theorem natReprAux_ne_nil : ∀ (fuel n : Nat), natReprAux (fuel + 1) n ≠ [] := by
  intro fuel n
  unfold natReprAux
  split
  · simp
  · simp

theorem natRepr_ne_nil (n : Nat) : natRepr n ≠ [] := natReprAux_ne_nil n n

theorem natReprAux_all_digit :
    ∀ (fuel n : Nat), ∀ c ∈ natReprAux fuel n, c.isDigit = true := by
  intro fuel
  induction fuel with
  | zero => intro n c hc; simp [natReprAux] at hc
  | succ fuel ih =>
    intro n c hc
    unfold natReprAux at hc
    split at hc
    · simp at hc
      subst hc
      exact digitChar_isDigit _
    · rcases List.mem_append.mp hc with h1 | h2
      · exact ih (n / 10) c h1
      · simp at h2
        subst h2
        exact digitChar_isDigit _

theorem natRepr_all_digit (n : Nat) : ∀ c ∈ natRepr n, c.isDigit = true :=
  natReprAux_all_digit (n + 1) n

theorem digitsVal_natReprAux :
    ∀ (fuel n : Nat), n < fuel → digitsVal (natReprAux fuel n) = n := by
  intro fuel
  induction fuel with
  | zero => intro n h; omega
  | succ fuel ih =>
    intro n hlt
    unfold natReprAux
    split
    · rename_i h
      simp [digitsVal, charDigitVal_digitChar h]
    · rename_i h
      rw [digitsVal_append]
      simp only [List.foldl_cons, List.foldl_nil]
      have hdiv : n / 10 < fuel := by
        have h1 : n / 10 < n := Nat.div_lt_self (by omega) (by omega)
        omega
      rw [ih (n / 10) hdiv]
      rw [charDigitVal_digitChar (by omega)]
      omega

theorem digitsVal_natRepr (n : Nat) : digitsVal (natRepr n) = n :=
  digitsVal_natReprAux (n + 1) n (by omega)

theorem takeWhile_append_all {p : Char → Bool} {l1 : List Char}
    (h : ∀ c ∈ l1, p c = true) (l2 : List Char) :
    (l1 ++ l2).takeWhile p = l1 ++ l2.takeWhile p := by
  induction l1 with
  | nil => simp
  | cons c cs ih =>
    simp only [List.cons_append, List.takeWhile_cons]
    rw [h c (by simp)]
    simp [ih (fun c hc => h c (by simp [hc]))]

theorem dropWhile_append_all {p : Char → Bool} {l1 : List Char}
    (h : ∀ c ∈ l1, p c = true) (l2 : List Char) :
    (l1 ++ l2).dropWhile p = l2.dropWhile p := by
  induction l1 with
  | nil => simp
  | cons c cs ih =>
    simp only [List.cons_append, List.dropWhile_cons]
    rw [h c (by simp)]
    simp [ih (fun c hc => h c (by simp [hc]))]

theorem digitsVal_two (x y : Nat) (hx : x < 10) (hy : y < 10) :
    digitsVal [digitChar x, digitChar y] = 10 * x + y := by
  simp [digitsVal, charDigitVal_digitChar hx, charDigitVal_digitChar hy]
  ring

theorem parseUnsignedDecimal_format (a : Nat) :
    parseUnsignedDecimal
        (natRepr (a / 100) ++ '.' :: digitChar (a % 100 / 10) :: [digitChar (a % 100 % 10)]) =
      some (a, 2) := by
  have hall := natRepr_all_digit (a / 100)
  have hdot : ('.' : Char).isDigit = false := rfl
  unfold parseUnsignedDecimal
  rw [takeWhile_append_all hall, dropWhile_append_all hall]
  simp only [List.takeWhile_cons, List.dropWhile_cons, hdot, digitChar_isDigit,
    Bool.false_eq_true, if_false, if_true, List.takeWhile_nil, List.dropWhile_nil,
    List.isEmpty_nil, List.isEmpty_cons, Bool.true_and, Bool.and_false, Bool.not_false,
    if_pos]
  have h1 : a % 100 / 10 < 10 := by omega
  have h2 : a % 100 % 10 < 10 := by omega
  simp only [List.append_nil, List.length_cons, List.length_nil]
  rw [digitsVal_natRepr, digitsVal_two _ _ h1 h2]
  simp only [Option.some_inj, Prod.mk.injEq]
  constructor
  · omega
  · trivial

theorem fdiv_half_shift (a : Int) : Int.fdiv (200 * a + 100) 200 = a := by
  rw [Int.fdiv_eq_ediv _ (by norm_num)]
  omega

theorem parseDecimal_mk_neg (core : List Char) :
    parseDecimal ⟨'-' :: core⟩ =
      (parseUnsignedDecimal core).map (fun p => (-(p.1 : Int), p.2)) := rfl

theorem parseDecimal_cons_digit {d : Char} (tail : List Char) (hd : d.isDigit = true) :
    parseDecimal ⟨d :: tail⟩ =
      (parseUnsignedDecimal (d :: tail)).map (fun p => ((p.1 : Int), p.2)) := by
  have hdm : d ≠ '-' := by rintro rfl; exact absurd hd (by decide)
  have hdp : d ≠ '+' := by rintro rfl; exact absurd hd (by decide)
  simp [parseDecimal, hdm, hdp]

theorem priceToCents_centsToDecimalString (c : Int) :
    priceToCents (centsToDecimalString c) = c := by
  have hfmt := parseUnsignedDecimal_format c.natAbs
  by_cases hc : c < 0
  · have h1 : centsToDecimalString c = ⟨'-' :: (natRepr (c.natAbs / 100) ++ '.' ::
        digitChar (c.natAbs % 100 / 10) :: [digitChar (c.natAbs % 100 % 10)])⟩ := by
      unfold centsToDecimalString
      rw [if_pos hc]
    rw [h1]
    unfold priceToCents
    rw [parseDecimal_mk_neg, hfmt]
    simp only [Option.map_some']
    have ha : ((c.natAbs : Int)) = -c := by omega
    have : (2 : Int) * (-(c.natAbs : Int)) * 100 + 10 ^ 2 = 200 * c + 100 := by
      rw [ha]; ring
    rw [this, show ((2 : Int) * 10 ^ 2) = 200 by norm_num, fdiv_half_shift]
  · have h1 : centsToDecimalString c = ⟨natRepr (c.natAbs / 100) ++ '.' ::
        digitChar (c.natAbs % 100 / 10) :: [digitChar (c.natAbs % 100 % 10)]⟩ := by
      unfold centsToDecimalString
      rw [if_neg hc]
    rw [h1]
    obtain ⟨d, tail, hdt⟩ : ∃ d tail, natRepr (c.natAbs / 100) = d :: tail := by
      cases h : natRepr (c.natAbs / 100) with
      | nil => exact absurd h (natRepr_ne_nil _)
      | cons d tail => exact ⟨d, tail, rfl⟩
    have hd : d.isDigit = true := natRepr_all_digit (c.natAbs / 100) d (by rw [hdt]; simp)
    unfold priceToCents
    rw [show (natRepr (c.natAbs / 100) ++ '.' :: digitChar (c.natAbs % 100 / 10) ::
        [digitChar (c.natAbs % 100 % 10)]) = d :: (tail ++ '.' ::
        digitChar (c.natAbs % 100 / 10) :: [digitChar (c.natAbs % 100 % 10)]) by
      rw [hdt]; simp]
    rw [parseDecimal_cons_digit _ hd]
    rw [show (d :: (tail ++ '.' :: digitChar (c.natAbs % 100 / 10) ::
        [digitChar (c.natAbs % 100 % 10)])) = (natRepr (c.natAbs / 100) ++ '.' ::
        digitChar (c.natAbs % 100 / 10) :: [digitChar (c.natAbs % 100 % 10)]) by
      rw [hdt]; simp]
    rw [hfmt]
    simp only [Option.map_some']
    have ha : ((c.natAbs : Int)) = c := by omega
    have : (2 : Int) * ((c.natAbs : Int)) * 100 + 10 ^ 2 = 200 * c + 100 := by
      rw [ha]; ring
    rw [this, show ((2 : Int) * 10 ^ 2) = 200 by norm_num, fdiv_half_shift]



/-! ### Generic list facts -/

theorem findSome?_some_mem {α β : Type} {l : List α} {f : α → Option β} {b : β}
    (h : l.findSome? f = some b) : ∃ a ∈ l, f a = some b := by
  induction l with
  | nil => simp [List.findSome?] at h
  | cons x xs ih =>
    rw [List.findSome?_cons] at h
    cases hfx : f x with
    | some v =>
      rw [hfx] at h
      simp at h
      exact ⟨x, by simp, by rw [hfx, h]⟩
    | none =>
      rw [hfx] at h
      simp at h
      obtain ⟨a, ha, hfa⟩ := ih h
      exact ⟨a, by simp [ha], hfa⟩

theorem foldl_add_shift {α : Type} (f : α → Int) (l : List α) (a : Int) :
    l.foldl (fun s x => s + f x) a = a + (l.map f).sum := by
  induction l generalizing a with
  | nil => simp
  | cons x xs ih => simp [ih]; ring

/-! ### Aggregation -/

theorem aggLookup_addQty (acc : List (Nat × Int)) (p pid : Nat) (q : Int) :
    aggLookup (addQty acc p q) pid =
      aggLookup acc pid + (if p = pid then q else 0) := by
  induction acc with
  | nil =>
    by_cases h : p = pid
    · subst h; simp [addQty, aggLookup]
    · simp [addQty, aggLookup, h]
  | cons kv rest ih =>
    obtain ⟨k, v⟩ := kv
    by_cases hk : k = p
    · subst hk
      by_cases hp : k = pid
      · subst hp; simp [addQty, aggLookup]
      · simp [addQty, aggLookup, hp]
    · have hk2 : ¬ (k == p) = true := by simpa using hk
      by_cases hp : k = pid
      · subst hp
        have hpk : ¬ p = k := fun hh => hk hh.symm
        simp [addQty, aggLookup, hk2, hpk]
      · simp [addQty, aggLookup, hk2, hp, ih]

theorem aggLookup_foldl (ois : List ProcessingOrderItem) (acc : List (Nat × Int)) (pid : Nat) :
    aggLookup (ois.foldl (fun acc oi => addQty acc oi.product_id oi.quantity) acc) pid =
      aggLookup acc pid + sumQty ois pid := by
  induction ois generalizing acc with
  | nil => simp [sumQty]
  | cons oi rest ih =>
    simp only [List.foldl_cons]
    rw [ih, aggLookup_addQty]
    by_cases h : oi.product_id = pid
    · simp [sumQty, h]
      ring
    · simp [sumQty, h]

theorem aggLookup_aggregate (ois : List ProcessingOrderItem) (pid : Nat) :
    aggLookup (aggregate ois) pid = sumQty ois pid := by
  rw [aggregate, aggLookup_foldl]
  simp [aggLookup]

theorem mem_of_aggLookup_ne_zero :
    ∀ (l : List (Nat × Int)) (pid : Nat),
      aggLookup l pid ≠ 0 → (pid, aggLookup l pid) ∈ l := by
  intro l
  induction l with
  | nil => intro pid h; simp [aggLookup] at h
  | cons kv rest ih =>
    intro pid h
    obtain ⟨k, v⟩ := kv
    by_cases hk : k = pid
    · subst hk
      simp [aggLookup]
    · rw [aggLookup, if_neg hk] at h ⊢
      exact List.mem_cons_of_mem _ (ih pid h)

/-! ### Validation and resolution -/

theorem validateItems_none_pos :
    ∀ (items : List RequestItem) (i : Nat), validateItems items i = none →
      ∀ it ∈ items, 0 < it.quantity := by
  intro items
  induction items with
  | nil => intro i _ it hit; simp at hit
  | cons x xs ih =>
    intro i h it hit
    unfold validateItems at h
    by_cases h1 : x.slug = none ∧ x.productId = none
    · simp [h1] at h
    · rw [if_neg h1] at h
      by_cases h2 : x.quantity ≤ 0
      · simp [h2] at h
      · rw [if_neg h2] at h
        rcases List.mem_cons.mp hit with rfl | hmem
        · omega
        · exact ih (i + 1) h it hmem

theorem buildOrderItems_error_spec (products : List Product) :
    ∀ (items : List RequestItem) (e : String),
      buildOrderItems products items = .error e →
      ∃ it ∈ items, resolveItem products it = none ∧ e = itemIdentifier it := by
  intro items
  induction items with
  | nil => intro e h; simp [buildOrderItems] at h
  | cons x xs ih =>
    intro e h
    unfold buildOrderItems at h
    cases hres : resolveItem products x with
    | none =>
      rw [hres] at h
      simp at h
      exact ⟨x, by simp, hres, h.symm⟩
    | some row =>
      rw [hres] at h
      cases htail : buildOrderItems products xs with
      | error e2 =>
        rw [htail] at h
        simp at h
        obtain ⟨it, hmem, hnone, hid⟩ := ih e2 htail
        exact ⟨it, by simp [hmem], hnone, h ▸ hid⟩
      | ok tail => rw [htail] at h; simp at h

theorem buildOrderItems_ok_resolves (products : List Product) :
    ∀ (items : List RequestItem) (ois : List ProcessingOrderItem),
      buildOrderItems products items = .ok ois →
      ∀ it ∈ items, resolveItem products it ≠ none := by
  intro items
  induction items with
  | nil => intro ois _ it hit; simp at hit
  | cons x xs ih =>
    intro ois h it hit
    unfold buildOrderItems at h
    cases hres : resolveItem products x with
    | none => rw [hres] at h; simp at h
    | some row =>
      rw [hres] at h
      cases htail : buildOrderItems products xs with
      | error e2 => rw [htail] at h; simp at h
      | ok tail =>
        rcases List.mem_cons.mp hit with rfl | hmem
        · simp [hres]
        · exact ih tail htail it hmem

theorem buildOrderItems_ok_quantities (products : List Product) :
    ∀ (items : List RequestItem) (ois : List ProcessingOrderItem),
      buildOrderItems products items = .ok ois →
      ∀ oi ∈ ois, ∃ it ∈ items, oi.quantity = it.quantity := by
  intro items
  induction items with
  | nil =>
    intro ois h oi hoi
    simp [buildOrderItems] at h
    subst h
    simp at hoi
  | cons x xs ih =>
    intro ois h oi hoi
    unfold buildOrderItems at h
    cases hres : resolveItem products x with
    | none => rw [hres] at h; simp at h
    | some row =>
      rw [hres] at h
      cases htail : buildOrderItems products xs with
      | error e2 => rw [htail] at h; simp at h
      | ok tail =>
        rw [htail] at h
        simp at h
        subst h
        rcases List.mem_cons.mp hoi with rfl | hmem
        · exact ⟨x, by simp, rfl⟩
        · obtain ⟨it, hmem2, hq⟩ := ih tail htail oi hmem
          exact ⟨it, by simp [hmem2], hq⟩

/-! ### The windowed query -/

theorem windowSum_nil (orders : List OrderRow) (U pid : Nat) (now w : Int) :
    windowSum orders [] U pid now w = 0 := rfl

theorem windowSum_singleton (o : OrderRow) (oi : OrderItemRow) (U pid : Nat)
    (now w : Int) (hoi : oi.order_id = o.id) :
    windowSum [o] [oi] U pid now w =
      if oi.product_id = pid ∧ o.user_id = U ∧ now - w ≤ o.created_at then oi.quantity
      else 0 := by
  unfold windowSum joinsRecentOrder
  rw [List.filter_cons]
  have hid : (o.id == oi.order_id) = true := by simp [hoi]
  by_cases h1 : oi.product_id = pid
  · by_cases h2 : o.user_id = U
    · by_cases h3 : now - w ≤ o.created_at
      · have hb : (oi.product_id == pid &&
            [o].any (fun o2 => o2.id == oi.order_id && o2.user_id == U &&
              decide (now - w ≤ o2.created_at))) = true := by
          simp only [List.any_cons, List.any_nil, Bool.or_false]
          rw [hid, decide_eq_true h3]
          simp [h1, h2]
        rw [hb]
        simp [h1, h2, h3]
      · have hb : (oi.product_id == pid &&
            [o].any (fun o2 => o2.id == oi.order_id && o2.user_id == U &&
              decide (now - w ≤ o2.created_at))) = false := by
          simp only [List.any_cons, List.any_nil, Bool.or_false]
          rw [decide_eq_false h3]
          simp
        rw [hb]
        simp [h3]
    · have hb : (oi.product_id == pid &&
          [o].any (fun o2 => o2.id == oi.order_id && o2.user_id == U &&
            decide (now - w ≤ o2.created_at))) = false := by
        have hu : (o.user_id == U) = false := by simp [h2]
        simp only [List.any_cons, List.any_nil, Bool.or_false]
        rw [hu]
        simp
      rw [hb]
      simp [h2]
  · have hb : (oi.product_id == pid &&
        [o].any (fun o2 => o2.id == oi.order_id && o2.user_id == U &&
          decide (now - w ≤ o2.created_at))) = false := by
      have hp : (oi.product_id == pid) = false := by simp [h1]
      rw [hp]
      simp
    rw [hb]
    simp [h1]

theorem joinsRecentOrder_mono (orders : List OrderRow) (U : Nat) (t t2 w : Int)
    (h : t ≤ t2) (oi : OrderItemRow) (hj : joinsRecentOrder orders U t2 w oi = true) :
    joinsRecentOrder orders U t w oi = true := by
  unfold joinsRecentOrder at *
  rw [List.any_eq_true] at *
  obtain ⟨o, ho, hcond⟩ := hj
  refine ⟨o, ho, ?_⟩
  simp only [Bool.and_eq_true, decide_eq_true_eq] at *
  exact ⟨hcond.1, by omega⟩

theorem windowSum_antitone (orders : List OrderRow) (items : List OrderItemRow)
    (U pid : Nat) (t t2 w : Int)
    (hq : ∀ oi ∈ items, 0 ≤ oi.quantity) (h : t ≤ t2) :
    windowSum orders items U pid t2 w ≤ windowSum orders items U pid t w := by
  induction items with
  | nil => simp [windowSum_nil]
  | cons oi rest ih =>
    have hq0 : 0 ≤ oi.quantity := hq oi (by simp)
    have hqr : ∀ x ∈ rest, 0 ≤ x.quantity := fun x hx => hq x (by simp [hx])
    have ihr := ih hqr
    unfold windowSum at ihr ⊢
    rw [List.filter_cons, List.filter_cons]
    by_cases hp : (oi.product_id == pid) = true
    · by_cases hj2 : joinsRecentOrder orders U t2 w oi = true
      · have hj1 := joinsRecentOrder_mono orders U t t2 w h oi hj2
        rw [hp, hj1, hj2]
        simp only [Bool.and_self, if_true, List.map_cons, List.sum_cons]
        omega
      · have hj2f : joinsRecentOrder orders U t2 w oi = false := by
          revert hj2; cases joinsRecentOrder orders U t2 w oi <;> simp
        rw [hp, hj2f]
        by_cases hj1 : joinsRecentOrder orders U t w oi = true
        · rw [hj1]
          simp
          omega
        · have hj1f : joinsRecentOrder orders U t w oi = false := by
            revert hj1; cases joinsRecentOrder orders U t w oi <;> simp
          rw [hj1f]
          simpa using ihr
    · have hpf : (oi.product_id == pid) = false := by
        revert hp; cases oi.product_id == pid <;> simp
      rw [hpf]
      simpa using ihr

theorem windowSum_append (orders : List OrderRow) (items newItems : List OrderItemRow)
    (row : OrderRow)
    (hOldItems : ∀ oi ∈ items, oi.order_id ≠ row.id)
    (hOldOrders : ∀ o ∈ orders, o.id ≠ row.id)
    (hNew : ∀ oi ∈ newItems, oi.order_id = row.id)
    (U pid : Nat) (now w : Int) :
    windowSum (orders ++ [row]) (items ++ newItems) U pid now w =
      windowSum orders items U pid now w +
        (if row.user_id = U ∧ now - w ≤ row.created_at then rowsSumQty newItems pid
         else 0) := by
  unfold windowSum
  rw [List.filter_append, List.map_append, List.sum_append]
  have hfilterOld :
      items.filter (fun oi => oi.product_id == pid &&
          joinsRecentOrder (orders ++ [row]) U now w oi) =
        items.filter (fun oi => oi.product_id == pid &&
          joinsRecentOrder orders U now w oi) := by
    apply List.filter_congr
    intro oi hoi
    have hne : (row.id == oi.order_id) = false := by
      simp only [beq_eq_false_iff_ne, ne_eq]
      exact fun hh => (hOldItems oi hoi) hh.symm
    unfold joinsRecentOrder
    rw [List.any_append]
    simp only [List.any_cons, List.any_nil, Bool.or_false]
    rw [hne]
    simp
  rw [hfilterOld]
  congr 1
  by_cases hcase : row.user_id = U ∧ now - w ≤ row.created_at
  · rw [if_pos hcase]
    unfold rowsSumQty
    have hfe : newItems.filter (fun oi => oi.product_id == pid &&
        joinsRecentOrder (orders ++ [row]) U now w oi) =
        newItems.filter (fun oi => oi.product_id == pid) := by
      apply List.filter_congr
      intro oi hoi
      have hjoin : joinsRecentOrder (orders ++ [row]) U now w oi = true := by
        unfold joinsRecentOrder
        rw [List.any_append]
        have hid : (row.id == oi.order_id) = true := by simp [hNew oi hoi]
        have hu : (row.user_id == U) = true := by simp [hcase.1]
        simp only [List.any_cons, List.any_nil, Bool.or_false]
        rw [hid, hu, decide_eq_true hcase.2]
        simp
      rw [hjoin, Bool.and_true]
    rw [hfe]
  · rw [if_neg hcase]
    have hnil : newItems.filter (fun oi => oi.product_id == pid &&
        joinsRecentOrder (orders ++ [row]) U now w oi) = [] := by
      rw [List.filter_eq_nil_iff]
      intro oi hoi
      have hjoin : joinsRecentOrder (orders ++ [row]) U now w oi = false := by
        unfold joinsRecentOrder
        rw [List.any_append]
        have h1 : orders.any (fun o => o.id == oi.order_id && o.user_id == U &&
            decide (now - w ≤ o.created_at)) = false := by
          rw [List.any_eq_false]
          intro o ho
          have hne : o.id ≠ oi.order_id := by
            rw [hNew oi hoi]
            exact hOldOrders o ho
          simp [hne]
        have h2 : (row.id == oi.order_id && row.user_id == U &&
            decide (now - w ≤ row.created_at)) = false := by
          rcases not_and_or.mp hcase with hu | ht
          · have hu2 : (row.user_id == U) = false := by simpa using hu
            rw [hu2]
            simp
          · rw [decide_eq_false ht]
            simp
        simp only [List.any_cons, List.any_nil, Bool.or_false]
        rw [h1, h2]
        rfl
      simp [hjoin]
    rw [hnil]
    simp

/-! ### The rate check -/

theorem rateCheck_none_iff (db : Db) (u : Nat) (limit w : Int)
    (agg : List (Nat × Int)) (ois : List ProcessingOrderItem) (now : Int) :
    rateCheck db u limit w agg ois now = none ↔
      ∀ pq ∈ agg, windowSum db.orders db.orderItems u pq.1 now w + pq.2 ≤ limit := by
  unfold rateCheck
  rw [List.findSome?_eq_none_iff]
  constructor
  · intro hall pq hmem
    have := hall pq hmem
    by_cases hgt : windowSum db.orders db.orderItems u pq.1 now w + pq.2 > limit
    · rw [if_pos hgt] at this
      simp at this
    · omega
  · intro hall pq hmem
    rw [if_neg (by have := hall pq hmem; omega)]

theorem rateCheck_some_spec (db : Db) (u : Nat) (limit w : Int)
    (agg : List (Nat × Int)) (ois : List ProcessingOrderItem) (now : Int)
    (rl : RateLimitBody) (h : rateCheck db u limit w agg ois now = some rl) :
    (rl.productId, rl.requestedQuantity) ∈ agg ∧
    rl.limit = limit ∧ rl.windowSeconds = w ∧
    rl.recentPurchasedQuantity =
      windowSum db.orders db.orderItems u rl.productId now w ∧
    rl.recentPurchasedQuantity + rl.requestedQuantity > rl.limit ∧
    rl.slug = (ois.find? (fun x => x.product_id == rl.productId)).map (fun x => x.slug) := by
  obtain ⟨pq, hmem, hf⟩ := findSome?_some_mem h
  by_cases hgt : windowSum db.orders db.orderItems u pq.1 now w + pq.2 > limit
  · rw [if_pos hgt] at hf
    simp only [Option.some_inj] at hf
    subst hf
    exact ⟨hmem, rfl, rfl, rfl, by simpa using hgt, rfl⟩
  · rw [if_neg hgt] at hf
    simp at hf

/-! ### Structure of `purchase` -/

theorem purchase_eq_of_resolved (env : Env) (db : Db) (u : Nat) (body : PurchaseBody)
    (now : Int) (ois : List ProcessingOrderItem)
    (hne : body.items.isEmpty = false)
    (hval : validateItems body.items 0 = none)
    (hres : buildOrderItems db.products body.items = .ok ois) :
    purchase env db u body now =
      match rateCheck db u (limitPerProduct env) (windowSecondsEff env)
          (aggregate ois) ois now with
      | some rl => (.rateLimited rl, db)
      | none => purchaseCommit db u body ois now := by
  unfold purchase
  rw [hne, hval, hres]
  simp

theorem purchase_eq_of_error (env : Env) (db : Db) (u : Nat) (body : PurchaseBody)
    (now : Int) (e : String)
    (hne : body.items.isEmpty = false)
    (hval : validateItems body.items 0 = none)
    (hres : buildOrderItems db.products body.items = .error e) :
    purchase env db u body now = (.productNotFound e, db) := by
  unfold purchase
  rw [hne, hval, hres]
  simp

theorem saveUserAddress_parts (db : Db) (u : Nat) (a : String) :
    (saveUserAddress db u a).orders = db.orders ∧
    (saveUserAddress db u a).orderItems = db.orderItems ∧
    (saveUserAddress db u a).nextOrderId = db.nextOrderId ∧
    (saveUserAddress db u a).products = db.products := by
  unfold saveUserAddress
  exact ⟨rfl, rfl, rfl, rfl⟩

theorem purchaseCommit_spec (db : Db) (u : Nat) (body : PurchaseBody)
    (ois : List ProcessingOrderItem) (now : Int) :
    ∃ (ship : Option String) (db1 : Db),
      db1.orders = db.orders ∧ db1.orderItems = db.orderItems ∧
      db1.nextOrderId = db.nextOrderId ∧ db1.products = db.products ∧
      purchaseCommit db u body ois now =
        (.created
          { id := db.nextOrderId, userId := u,
            totalCents := toNumber2Cents (centsToDecimalString (totalCentsOf ois)),
            status := "paid", createdAt := now, shippingAddress := ship,
            items := ois.map (fun oi =>
              { productId := oi.product_id, slug := oi.slug, title := oi.title,
                priceCents := toNumber2Cents oi.price, quantity := oi.quantity }) },
         { db1 with
           orders := db1.orders ++
             [{ id := db.nextOrderId, user_id := u,
                total := centsToDecimalString (totalCentsOf ois),
                shipping_address := ship, status := "paid", created_at := now }],
           orderItems := db1.orderItems ++ ois.map (fun oi =>
             ({ order_id := db.nextOrderId, product_id := oi.product_id,
                slug := oi.slug, title := oi.title, price := oi.price,
                quantity := oi.quantity } : OrderItemRow)),
           nextOrderId := db.nextOrderId + 1 }) := by
  cases hs : resolveShipping db u body.shippingAddress with
  | none => exact ⟨none, db, rfl, rfl, rfl, rfl, by simp [purchaseCommit, hs]⟩
  | some a =>
    by_cases hsa : body.saveAddress = true
    · exact ⟨some a, saveUserAddress db u a, rfl, rfl, rfl, rfl,
        by simp [purchaseCommit, hs, hsa, saveUserAddress]⟩
    · exact ⟨some a, db, rfl, rfl, rfl, rfl, by simp [purchaseCommit, hs, hsa]⟩

/-! ### Totals -/

theorem totalCentsOf_eq_map_sum (ois : List ProcessingOrderItem) :
    totalCentsOf ois =
      (ois.map (fun oi => priceToCents oi.price * oi.quantity)).sum := by
  unfold totalCentsOf
  rw [foldl_add_shift]
  simp

theorem spec_totalCents_eq_map_sum (products : List Product) (items : List RequestItem) :
    spec_totalCents products items = (items.map (fun it =>
      match resolveItem products it with
      | some p => priceToCents p.price * it.quantity
      | none => 0)).sum := by
  unfold spec_totalCents
  have hfun : (fun (s : Int) (it : RequestItem) =>
      match resolveItem products it with
      | some p => s + priceToCents p.price * it.quantity
      | none => s) = (fun (s : Int) (it : RequestItem) =>
        s + (match resolveItem products it with
        | some p => priceToCents p.price * it.quantity
        | none => 0)) := by
    funext s it
    cases resolveItem products it <;> simp
  rw [hfun, foldl_add_shift]
  simp

theorem totalCentsOf_of_build (products : List Product) :
    ∀ (items : List RequestItem) (ois : List ProcessingOrderItem),
      buildOrderItems products items = .ok ois →
      totalCentsOf ois = spec_totalCents products items := by
  intro items
  induction items with
  | nil =>
    intro ois h
    simp [buildOrderItems] at h
    subst h
    simp [totalCentsOf, spec_totalCents]
  | cons x xs ih =>
    intro ois h
    unfold buildOrderItems at h
    cases hres : resolveItem products x with
    | none => rw [hres] at h; simp at h
    | some row =>
      rw [hres] at h
      cases htail : buildOrderItems products xs with
      | error e => rw [htail] at h; simp at h
      | ok tail =>
        rw [htail] at h
        simp at h
        subst h
        have hih := ih tail htail
        rw [totalCentsOf_eq_map_sum, spec_totalCents_eq_map_sum] at hih ⊢
        simp only [List.map_cons, List.sum_cons, hres]
        rw [priceToCents_centsToDecimalString, hih]

/-! ### Configuration positivity -/

theorem parsePositiveOr_pos (e : Option String) (d : Int) (hd : 0 < d) :
    0 < parsePositiveOr e d := by
  unfold parsePositiveOr
  cases parseIntJs (e.getD "") with
  | none => exact hd
  | some n =>
    by_cases hn : 0 < n
    · simp only [if_pos hn]
      exact hn
    · simp only [if_neg hn]
      exact hd

/-! ### Case analysis of one purchase call -/

theorem purchase_db_cases (env : Env) (db : Db) (u : Nat) (body : PurchaseBody) (now : Int) :
    (purchase env db u body now).2 = db ∨
    ∃ (ois : List ProcessingOrderItem) (ship : Option String) (db1 : Db),
      validateItems body.items 0 = none ∧
      buildOrderItems db.products body.items = .ok ois ∧
      rateCheck db u (limitPerProduct env) (windowSecondsEff env)
        (aggregate ois) ois now = none ∧
      db1.orders = db.orders ∧ db1.orderItems = db.orderItems ∧
      db1.nextOrderId = db.nextOrderId ∧
      (purchase env db u body now).2 =
        { db1 with
          orders := db1.orders ++
            [{ id := db.nextOrderId, user_id := u,
               total := centsToDecimalString (totalCentsOf ois), shipping_address := ship,
               status := "paid", created_at := now }],
          orderItems := db1.orderItems ++ ois.map (fun oi =>
            ({ order_id := db.nextOrderId, product_id := oi.product_id,
               slug := oi.slug, title := oi.title, price := oi.price,
               quantity := oi.quantity } : OrderItemRow)),
          nextOrderId := db.nextOrderId + 1 } := by
  by_cases hne : body.items.isEmpty = true
  · left
    simp [purchase, hne]
  · have hne2 : body.items.isEmpty = false := by
      revert hne; cases body.items.isEmpty <;> simp
    cases hval : validateItems body.items 0 with
    | some msg =>
      left
      simp [purchase, hne2, hval]
    | none =>
      cases hres : buildOrderItems db.products body.items with
      | error e =>
        left
        rw [purchase_eq_of_error env db u body now e hne2 hval hres]
      | ok ois =>
        rw [purchase_eq_of_resolved env db u body now ois hne2 hval hres]
        cases hrc : rateCheck db u (limitPerProduct env) (windowSecondsEff env)
            (aggregate ois) ois now with
        | some rl =>
          left
          simp
        | none =>
          right
          obtain ⟨ship, db1, h1, h2, h3, h4, heq⟩ := purchaseCommit_spec db u body ois now
          refine ⟨ois, ship, db1, rfl, rfl, hrc, h1, h2, h3, ?_⟩
          simp only [heq]

/-! ### Preservation of the ledger invariants -/

theorem rowsSumQty_map (ois : List ProcessingOrderItem) (oid : Nat) (pid : Nat) :
    rowsSumQty (ois.map (fun oi =>
      ({ order_id := oid, product_id := oi.product_id, slug := oi.slug,
         title := oi.title, price := oi.price, quantity := oi.quantity } : OrderItemRow))) pid =
      sumQty ois pid := by
  induction ois with
  | nil => simp [rowsSumQty, sumQty]
  | cons oi rest ih =>
    unfold rowsSumQty sumQty at *
    simp only [List.map_cons, List.filter_cons]
    by_cases hp : (oi.product_id == pid) = true
    · simp only [hp, if_true, List.map_cons, List.sum_cons]
      rw [ih]
    · have hpf : (oi.product_id == pid) = false := by
        revert hp; cases oi.product_id == pid <;> simp
      simp only [hpf]
      exact ih

theorem step_preserves (env : Env) (db : Db) (u : Nat) (body : PurchaseBody) (now : Int)
    (hg : GoodDb db) (hk : WindowBounded env db now) :
    GoodDb (purchase env db u body now).2 ∧
    WindowBounded env (purchase env db u body now).2 now := by
  rcases purchase_db_cases env db u body now with hsame | hnew
  · rw [hsame]
    exact ⟨hg, hk⟩
  · obtain ⟨ois, ship, db1, hval, hres, hrc, ho1, ho2, ho3, heq⟩ := hnew
    rw [heq]
    have hqpos : ∀ oi ∈ ois, 0 < oi.quantity := by
      intro oi hoi
      obtain ⟨it, hit, hq⟩ := buildOrderItems_ok_quantities db.products body.items ois hres oi hoi
      rw [hq]
      exact validateItems_none_pos body.items 0 hval it hit
    constructor
    · constructor
      · intro oi hoi
        dsimp only at hoi ⊢
        rw [ho2] at hoi
        rcases List.mem_append.mp hoi with hold | hnewm
        · have h := hg.1 oi hold
          exact ⟨h.1, by omega⟩
        · obtain ⟨x, hx, rfl⟩ := List.mem_map.mp hnewm
          exact ⟨hqpos x hx, Nat.lt_succ_self _⟩
      · intro o hoo
        dsimp only at hoo ⊢
        rw [ho1] at hoo
        rcases List.mem_append.mp hoo with hold | hrow
        · have := hg.2 o hold
          omega
        · simp at hrow
          subst hrow
          exact Nat.lt_succ_self _
    · intro U P
      dsimp only
      rw [ho1, ho2]
      have hOldItems : ∀ oi ∈ db.orderItems, oi.order_id ≠ db.nextOrderId := by
        intro oi hoi
        have := (hg.1 oi hoi).2
        omega
      have hOldOrders : ∀ o ∈ db.orders, o.id ≠ db.nextOrderId := by
        intro o ho
        have := hg.2 o ho
        omega
      have hNew : ∀ oi ∈ ois.map (fun oi =>
          ({ order_id := db.nextOrderId, product_id := oi.product_id,
             slug := oi.slug, title := oi.title, price := oi.price,
             quantity := oi.quantity } : OrderItemRow)), oi.order_id = db.nextOrderId := by
        intro oi hoi
        obtain ⟨x, hx, rfl⟩ := List.mem_map.mp hoi
        rfl
      rw [windowSum_append db.orders db.orderItems _ _ hOldItems hOldOrders hNew U P now
        (windowSecondsEff env)]
      rw [rowsSumQty_map]
      have hw : (0 : Int) < windowSecondsEff env := parsePositiveOr_pos _ _ (by norm_num)
      by_cases hU : u = U
      · rw [if_pos ⟨hU, by show now - windowSecondsEff env ≤ now; omega⟩]
        by_cases hz : sumQty ois P = 0
        · rw [hz]
          have := hk U P
          omega
        · have hmem : (P, sumQty ois P) ∈ aggregate ois := by
            have hf := mem_of_aggLookup_ne_zero (aggregate ois) P
            rw [aggLookup_aggregate] at hf
            exact hf hz
          have hb := (rateCheck_none_iff db u (limitPerProduct env) (windowSecondsEff env)
            (aggregate ois) ois now).mp hrc (P, sumQty ois P) hmem
          subst hU
          simpa using hb
      · rw [if_neg (fun hc => hU hc.1)]
        have := hk U P
        omega

theorem windowBounded_mono (env : Env) (db : Db) (t t2 : Int) (hg : GoodDb db)
    (h : t ≤ t2) (hk : WindowBounded env db t) : WindowBounded env db t2 := by
  intro U P
  refine le_trans (windowSum_antitone db.orders db.orderItems U P t t2
    (windowSecondsEff env) ?_ h) (hk U P)
  intro oi hoi
  exact le_of_lt (hg.1 oi hoi).1

theorem runTrace_invariant (env : Env) :
    ∀ (trace : List Attempt) (db : Db),
      GoodDb db → (∀ a ∈ trace, WindowBounded env db a.now) →
      trace.Pairwise (fun x y => x.now ≤ y.now) →
      ∀ (pre : List Attempt) (a : Attempt) (post : List Attempt),
        trace = pre ++ a :: post →
        WindowBounded env (runTrace env db (pre ++ [a])) a.now := by
  intro trace
  induction trace with
  | nil =>
    intro db _ _ _ pre a post hsplit
    exact absurd hsplit (by simp)
  | cons b rest ih =>
    intro db hg hk hpw pre a post hsplit
    have hstep := step_preserves env db b.userId b.body b.now hg (hk b (by simp))
    rw [List.pairwise_cons] at hpw
    cases pre with
    | nil =>
      simp only [List.nil_append, List.cons.injEq] at hsplit
      obtain ⟨rfl, rfl⟩ := hsplit
      simpa [runTrace] using hstep.2
    | cons c pre2 =>
      simp only [List.cons_append, List.cons.injEq] at hsplit
      obtain ⟨rfl, hrest⟩ := hsplit
      have hk2 : ∀ x ∈ rest, WindowBounded env (purchase env db b.userId b.body b.now).2 x.now := by
        intro x hx
        exact windowBounded_mono env _ b.now x.now hstep.1 (hpw.1 x hx) hstep.2
      have hrec := ih (purchase env db b.userId b.body b.now).2 hstep.1 hk2 hpw.2
        pre2 a post hrest
      simpa [runTrace] using hrec

theorem purchase_created_spec (env : Env) (db : Db) (u : Nat) (body : PurchaseBody)
    (now : Int) (resp : OrderResponse) (db2 : Db)
    (hrun : purchase env db u body now = (.created resp, db2)) :
    ∃ (ois : List ProcessingOrderItem) (ship : Option String) (db1 : Db),
      body.items.isEmpty = false ∧
      validateItems body.items 0 = none ∧
      buildOrderItems db.products body.items = .ok ois ∧
      rateCheck db u (limitPerProduct env) (windowSecondsEff env)
        (aggregate ois) ois now = none ∧
      db1.orders = db.orders ∧ db1.orderItems = db.orderItems ∧
      db1.nextOrderId = db.nextOrderId ∧ db1.products = db.products ∧
      resp =
        { id := db.nextOrderId, userId := u,
          totalCents := toNumber2Cents (centsToDecimalString (totalCentsOf ois)),
          status := "paid", createdAt := now, shippingAddress := ship,
          items := ois.map (fun oi =>
            { productId := oi.product_id, slug := oi.slug, title := oi.title,
              priceCents := toNumber2Cents oi.price, quantity := oi.quantity }) } ∧
      db2 =
        { db1 with
          orders := db1.orders ++
            [{ id := db.nextOrderId, user_id := u,
               total := centsToDecimalString (totalCentsOf ois),
               shipping_address := ship, status := "paid", created_at := now }],
          orderItems := db1.orderItems ++ ois.map (fun oi =>
            ({ order_id := db.nextOrderId, product_id := oi.product_id,
               slug := oi.slug, title := oi.title, price := oi.price,
               quantity := oi.quantity } : OrderItemRow)),
          nextOrderId := db.nextOrderId + 1 } := by
  by_cases hne : body.items.isEmpty = true
  · rw [purchase] at hrun
    rw [if_pos hne] at hrun
    exact absurd (congrArg Prod.fst hrun) (by simp)
  · have hne2 : body.items.isEmpty = false := by
      revert hne; cases body.items.isEmpty <;> simp
    cases hval : validateItems body.items 0 with
    | some msg =>
      rw [purchase] at hrun
      rw [if_neg (by simp [hne2]), hval] at hrun
      exact absurd (congrArg Prod.fst hrun) (by simp)
    | none =>
      cases hbo : buildOrderItems db.products body.items with
      | error e =>
        rw [purchase_eq_of_error env db u body now e hne2 hval hbo] at hrun
        exact absurd (congrArg Prod.fst hrun) (by simp)
      | ok ois =>
        rw [purchase_eq_of_resolved env db u body now ois hne2 hval hbo] at hrun
        cases hrc : rateCheck db u (limitPerProduct env) (windowSecondsEff env)
            (aggregate ois) ois now with
        | some rl =>
          rw [hrc] at hrun
          exact absurd (congrArg Prod.fst hrun) (by simp)
        | none =>
          rw [hrc] at hrun
          obtain ⟨ship, db1, h1, h2, h3, h4, heq⟩ := purchaseCommit_spec db u body ois now
          rw [heq] at hrun
          simp only [] at hrun
          have hfst := congrArg Prod.fst hrun
          have hsnd := congrArg Prod.snd hrun
          simp only [] at hfst hsnd
          injection hfst with hresp
          exact ⟨ois, ship, db1, hne2, rfl, rfl, hrc, h1, h2, h3, h4, hresp.symm, hsnd.symm⟩

/-! ## The claims -/

/-- C3: the rate-limit window boundary is inclusive at `now - W`: for a single
prior order of the right user and product, the windowed sum counts its
quantity exactly when `now - W ≤ created_at` (so an order exactly `W` seconds
old still counts, and a strictly older one does not); concretely, with the
default limit 1 per 60 s, a purchase of corn at `t = 0` succeeds, a second one
fails at `t = 30` and also at the tie `t = 60` (with prior 1, requested 1,
limit 1), and succeeds at `t = 61`. -/
theorem window_boundary_inclusive_c3 :
    (∀ (o : OrderRow) (oi : OrderItemRow) (U pid : Nat) (now w : Int),
      oi.order_id = o.id → o.user_id = U → oi.product_id = pid →
      windowSum [o] [oi] U pid now w =
        (if now - w ≤ o.created_at then oi.quantity else 0)) ∧
    (purchase envDefault dbCorn 7 bodyCorn 0).1 = .created respCorn ∧
    (purchase envDefault db2Corn 7 bodyCorn 30).1 = .rateLimited
      { limit := 1, windowSeconds := 60, productId := 1, slug := some "corn",
        requestedQuantity := 1, recentPurchasedQuantity := 1 } ∧
    (purchase envDefault db2Corn 7 bodyCorn 60).1 = .rateLimited
      { limit := 1, windowSeconds := 60, productId := 1, slug := some "corn",
        requestedQuantity := 1, recentPurchasedQuantity := 1 } ∧
    (∃ r, (purchase envDefault db2Corn 7 bodyCorn 61).1 = .created r) := by
  refine ⟨?_, by decide, by decide, by decide, ?_⟩
  · intro o oi U pid now w h1 h2 h3
    rw [windowSum_singleton o oi U pid now w h1]
    by_cases ht : now - w ≤ o.created_at
    · rw [if_pos ⟨h3, h2, ht⟩, if_pos ht]
    · rw [if_neg (fun hc => ht hc.2.2), if_neg ht]
  · exact ⟨respCorn61, by decide⟩

/-- C3 witness: the boundary fact evaluated on the committed `t = 0` order —
at `now = 60` (exactly 60 s old) the window still counts the purchase, at
`now = 61` it no longer does. -/
theorem window_boundary_inclusive_c3_witness :
    windowSum [ordA] [itemA] 7 1 60 60 = 1 ∧ windowSum [ordA] [itemA] 7 1 61 60 = 0 := by
  have h := window_boundary_inclusive_c3
  constructor
  · have h1 := h.1 ordA itemA 7 1 60 60 rfl rfl rfl
    rw [h1]
    decide
  · have h1 := h.1 ordA itemA 7 1 61 60 rfl rfl rfl
    rw [h1]
    decide

/-- C4: requested quantities are aggregated per distinct product id before the
rate check (`aggLookup` of the aggregation equals the per-product sum of the
line quantities), and a request with two line items for the same product,
quantity 1 each, against limit 1 is rejected whole — the database, and in
particular its (empty) `orders` table, is untouched. -/
theorem aggregate_per_product_c4 :
    (∀ (ois : List ProcessingOrderItem) (pid : Nat),
      aggLookup (aggregate ois) pid = sumQty ois pid) ∧
    (purchase envDefault dbCorn 7 bodyCornTwice 0).1 = .rateLimited
      { limit := 1, windowSeconds := 60, productId := 1, slug := some "corn",
        requestedQuantity := 2, recentPurchasedQuantity := 0 } ∧
    (purchase envDefault dbCorn 7 bodyCornTwice 0).2 = dbCorn ∧
    dbCorn.orders = [] := by
  exact ⟨aggLookup_aggregate, by decide, by decide, rfl⟩

/-- C7 (recording the divergence): the source has no per-user lock or
serializable isolation between the windowed SELECT and the `knex.transaction`
INSERT, so the interleaving in which both handlers' checks read the initial
database lets both commits through: starting from an empty ledger with limit
1 per 60 s, the raced pair commits, and the user's windowed total for the
product is then 2 > 1. -/
theorem race_both_commit_c7 :
    purchaseRacePair envDefault dbCorn 7 bodyCorn 0 = some dbRaced ∧
    windowSum dbRaced.orders dbRaced.orderItems 7 1 0 (windowSecondsEff envDefault) = 2 ∧
    limitPerProduct envDefault = 1 := by
  exact ⟨by decide, by decide, by decide⟩

/-- C8: the effective rate-limit configuration is always positive; an
environment value whose `parseInt` is a positive `n` is used as-is, and a
missing value or one that does not parse to a positive integer falls back
silently to the defaults 1 (limit) and 60 (window). -/
theorem rate_limit_config_c8 (env : Env) :
    0 < limitPerProduct env ∧ 0 < windowSecondsEff env ∧
    (∀ n : Int, parseIntJs (env.purchaseRateLimitPerProduct.getD "") = some n → 0 < n →
      limitPerProduct env = n) ∧
    (∀ n : Int, parseIntJs (env.purchaseRateLimitWindowSeconds.getD "") = some n → 0 < n →
      windowSecondsEff env = n) ∧
    ((∀ n : Int, parseIntJs (env.purchaseRateLimitPerProduct.getD "") = some n → n ≤ 0) →
      limitPerProduct env = 1) ∧
    ((∀ n : Int, parseIntJs (env.purchaseRateLimitWindowSeconds.getD "") = some n → n ≤ 0) →
      windowSecondsEff env = 60) := by
  refine ⟨parsePositiveOr_pos _ _ (by norm_num), parsePositiveOr_pos _ _ (by norm_num),
    ?_, ?_, ?_, ?_⟩
  · intro n hn hpos
    unfold limitPerProduct parsePositiveOr
    rw [hn]
    simp [hpos]
  · intro n hn hpos
    unfold windowSecondsEff parsePositiveOr
    rw [hn]
    simp [hpos]
  · intro hall
    unfold limitPerProduct parsePositiveOr
    cases hn : parseIntJs (env.purchaseRateLimitPerProduct.getD "") with
    | none => rfl
    | some n =>
      have hle := hall n hn
      simp [show ¬ (0 : Int) < n from by omega]
  · intro hall
    unfold windowSecondsEff parsePositiveOr
    cases hn : parseIntJs (env.purchaseRateLimitWindowSeconds.getD "") with
    | none => rfl
    | some n =>
      have hle := hall n hn
      simp [show ¬ (0 : Int) < n from by omega]

/-- C8 witness: `PURCHASE_RATE_LIMIT_PER_PRODUCT=5` is honoured while
`PURCHASE_RATE_LIMIT_WINDOW_SECONDS=bogus` falls back to 60, and with both
variables unset the defaults 1 and 60 apply. -/
theorem rate_limit_config_c8_witness :
    limitPerProduct envFiveBogus = 5 ∧ windowSecondsEff envFiveBogus = 60 ∧
    limitPerProduct envDefault = 1 ∧ windowSecondsEff envDefault = 60 := by
  have h1 := rate_limit_config_c8 envFiveBogus
  have h2 := rate_limit_config_c8 envDefault
  refine ⟨h1.2.2.1 5 (by decide) (by decide), ?_, ?_, ?_⟩
  · refine h1.2.2.2.2.2 ?_
    intro n hn
    have hnone : parseIntJs (envFiveBogus.purchaseRateLimitWindowSeconds.getD "") = none := by
      decide
    rw [hnone] at hn
    exact Option.noConfusion hn
  · refine h2.2.2.2.2.1 ?_
    intro n hn
    have hnone : parseIntJs (envDefault.purchaseRateLimitPerProduct.getD "") = none := by
      decide
    rw [hnone] at hn
    exact Option.noConfusion hn
  · refine h2.2.2.2.2.2 ?_
    intro n hn
    have hnone : parseIntJs (envDefault.purchaseRateLimitWindowSeconds.getD "") = none := by
      decide
    rw [hnone] at hn
    exact Option.noConfusion hn

/-- C10: for an authenticated user, a `getOrder` request for a nonexistent
order id and one for an order id owned by a different user produce the same
outcome — the 404 `Order not found` response — so the response reveals
nothing about the order's existence and no user can read another's order. -/
theorem getOrder_indistinguishable_c10 (db : Db) (u : Nat) (idMissing idOther : Nat)
    (h1 : ∀ o ∈ db.orders, o.id ≠ idMissing)
    (h2 : ∀ o ∈ db.orders, o.id = idOther → o.user_id ≠ u) :
    getOrder db u idMissing = GetOrderOutcome.notFound ∧
    getOrder db u idOther = GetOrderOutcome.notFound ∧
    getOrder db u idMissing = getOrder db u idOther := by
  have hm : db.orders.find? (fun o => o.id == idMissing && o.user_id == u) = none := by
    rw [List.find?_eq_none]
    intro o ho
    simp only [Bool.and_eq_true, beq_iff_eq, not_and]
    intro hid
    exact absurd hid (h1 o ho)
  have hoth : db.orders.find? (fun o => o.id == idOther && o.user_id == u) = none := by
    rw [List.find?_eq_none]
    intro o ho
    simp only [Bool.and_eq_true, beq_iff_eq, not_and]
    intro hid
    exact fun hu => h2 o ho hid hu
  refine ⟨?_, ?_, ?_⟩ <;> simp [getOrder, hm, hoth]

/-- C10 witness: in the store holding only user 7's order 1, user 8 gets the
identical not-found response for the absent order 99 and for order 1. -/
theorem getOrder_indistinguishable_c10_witness :
    getOrder db2Corn 8 99 = GetOrderOutcome.notFound ∧
    getOrder db2Corn 8 1 = GetOrderOutcome.notFound := by
  have h := getOrder_indistinguishable_c10 db2Corn 8 99 1 (by decide) (by decide)
  exact ⟨h.1, h.2.1⟩

/-- C5: for every successful purchase, the returned total and the stored
order row's total equal the exact sum over all line items of the unit price
in integer cents times the quantity; the sum is converted to a 2-decimal
string only at the storage boundary and the response's rounding recovers it
exactly, with no drift. -/
theorem total_exact_cents_c5 (env : Env) (db : Db) (u : Nat) (body : PurchaseBody)
    (now : Int) (resp : OrderResponse) (db2 : Db)
    (hrun : purchase env db u body now = (.created resp, db2)) :
    resp.totalCents = spec_totalCents db.products body.items ∧
    ∃ row, db2.orders = db.orders ++ [row] ∧
      row.total = centsToDecimalString (spec_totalCents db.products body.items) ∧
      toNumber2Cents row.total = spec_totalCents db.products body.items := by
  obtain ⟨ois, ship, db1, hne, hval, hbo, hrc, h1, h2, h3, h4, hresp, hdb⟩ :=
    purchase_created_spec env db u body now resp db2 hrun
  have htot := totalCentsOf_of_build db.products body.items ois hbo
  constructor
  · rw [hresp]
    show toNumber2Cents (centsToDecimalString (totalCentsOf ois)) = _
    rw [toNumber2Cents, priceToCents_centsToDecimalString, htot]
  · refine ⟨{ id := db.nextOrderId, user_id := u,
              total := centsToDecimalString (totalCentsOf ois),
              shipping_address := ship, status := "paid", created_at := now },
      ?_, ?_, ?_⟩
    · rw [hdb]
      dsimp only
      rw [h1]
    · show centsToDecimalString (totalCentsOf ois) = _
      rw [htot]
    · show toNumber2Cents (centsToDecimalString (totalCentsOf ois)) = _
      rw [toNumber2Cents, priceToCents_centsToDecimalString, htot]

/-- C5 witness: three cent-sensitive lines 0.10 + 0.20 + 0.30 total exactly
60 cents (stored as "0.60"), and the two-line case 0.10 + 0.20 totals
exactly 30 cents, i.e. "0.30". -/
theorem total_exact_cents_c5_witness :
    respPenny.totalCents = 60 ∧
    (∃ row, db2Penny.orders = dbPenny.orders ++ [row] ∧ row.total = "0.60") ∧
    spec_totalCents dbPenny.products bodyPennyTwo.items = 30 ∧
    centsToDecimalString 30 = "0.30" := by
  have h := total_exact_cents_c5 envLimit3 dbPenny 7 bodyPenny 0 respPenny db2Penny (by decide)
  have hspec : spec_totalCents dbPenny.products bodyPenny.items = 60 := by decide
  refine ⟨by rw [h.1, hspec], ?_, by decide, by decide⟩
  obtain ⟨row, hr1, hr2, hr3⟩ := h.2
  refine ⟨row, hr1, ?_⟩
  rw [hr2, hspec]
  decide

/-- C9: the 201 response of a successful purchase mirrors the persisted
state: its id, total (as the 2-decimal rounding of the stored decimal
string), status, createdAt and shipping address equal those of the committed
`orders` row, and its line items are exactly the committed `order_items`
rows with their monetary values rounded to 2 decimals. -/
theorem response_mirrors_persisted_c9 (env : Env) (db : Db) (u : Nat)
    (body : PurchaseBody) (now : Int) (resp : OrderResponse) (db2 : Db)
    (hrun : purchase env db u body now = (.created resp, db2)) :
    ∃ row rows,
      db2.orders = db.orders ++ [row] ∧
      db2.orderItems = db.orderItems ++ rows ∧
      resp.id = row.id ∧ resp.userId = row.user_id ∧
      resp.totalCents = toNumber2Cents row.total ∧
      resp.status = row.status ∧ row.status = "paid" ∧
      resp.createdAt = row.created_at ∧
      resp.shippingAddress = row.shipping_address ∧
      (∀ r ∈ rows, r.order_id = row.id) ∧
      resp.items = rows.map (fun r =>
        { productId := r.product_id, slug := r.slug, title := r.title,
          priceCents := toNumber2Cents r.price, quantity := r.quantity }) := by
  obtain ⟨ois, ship, db1, hne, hval, hbo, hrc, h1, h2, h3, h4, hresp, hdb⟩ :=
    purchase_created_spec env db u body now resp db2 hrun
  subst hresp
  subst hdb
  refine ⟨{ id := db.nextOrderId, user_id := u,
            total := centsToDecimalString (totalCentsOf ois),
            shipping_address := ship, status := "paid", created_at := now },
    ois.map (fun oi =>
      ({ order_id := db.nextOrderId, product_id := oi.product_id,
         slug := oi.slug, title := oi.title, price := oi.price,
         quantity := oi.quantity } : OrderItemRow)),
    ?_, ?_, rfl, rfl, rfl, rfl, rfl, rfl, rfl, ?_, ?_⟩
  · dsimp only
    rw [h1]
  · dsimp only
    rw [h2]
  · intro r hr
    obtain ⟨x, hx, rfl⟩ := List.mem_map.mp hr
    rfl
  · dsimp only
    rw [List.map_map]
    rfl

/-- C9 witness: for the concrete corn purchase, the appended `orders` row and
`order_items` rows exist and the response's total and items are their exact
2-decimal mirror. -/
theorem response_mirrors_persisted_c9_witness :
    ∃ row rows,
      db2Corn.orders = dbCorn.orders ++ [row] ∧
      db2Corn.orderItems = dbCorn.orderItems ++ rows ∧
      respCorn.totalCents = toNumber2Cents row.total ∧
      respCorn.items = rows.map (fun r =>
        { productId := r.product_id, slug := r.slug, title := r.title,
          priceCents := toNumber2Cents r.price, quantity := r.quantity }) := by
  obtain ⟨row, rows, ha, hb, _, _, hc, _, _, _, _, _, hd⟩ :=
    response_mirrors_persisted_c9 envDefault dbCorn 7 bodyCorn 0 respCorn db2Corn (by decide)
  exact ⟨row, rows, ha, hb, hc, hd⟩

/-- C6: under passing validation, a purchase fails with the
`Product not found` response exactly when some item's reference resolves to
no product; on that failure the named identifier is the offending item's
reference and the database — orders and order lines included — is unchanged,
even when other references in the same request do resolve. -/
theorem product_not_found_atomic_c6 (env : Env) (db : Db) (u : Nat)
    (body : PurchaseBody) (now : Int) (out : PurchaseOutcome) (db2 : Db)
    (hrun : purchase env db u body now = (out, db2))
    (hne : body.items.isEmpty = false)
    (hval : validateItems body.items 0 = none) :
    ((∃ it ∈ body.items, resolveItem db.products it = none) ↔
      ∃ ident, out = .productNotFound ident) ∧
    (∀ ident, out = .productNotFound ident →
      db2 = db ∧ ∃ it ∈ body.items, resolveItem db.products it = none ∧
        ident = itemIdentifier it) := by
  cases hbo : buildOrderItems db.products body.items with
  | error e =>
    rw [purchase_eq_of_error env db u body now e hne hval hbo] at hrun
    have hout : out = .productNotFound e := (congrArg Prod.fst hrun).symm
    have hdb : db2 = db := (congrArg Prod.snd hrun).symm
    obtain ⟨it, hmem, hnone, hid⟩ := buildOrderItems_error_spec db.products body.items e hbo
    constructor
    · exact ⟨fun _ => ⟨e, hout⟩, fun _ => ⟨it, hmem, hnone⟩⟩
    · intro ident hident
      rw [hout] at hident
      have he : e = ident := by
        injection hident with h2
      exact ⟨hdb, it, hmem, hnone, he ▸ hid⟩
  | ok ois =>
    have hres := buildOrderItems_ok_resolves db.products body.items ois hbo
    rw [purchase_eq_of_resolved env db u body now ois hne hval hbo] at hrun
    have hnotpnf : ∀ ident, out ≠ .productNotFound ident := by
      cases hrc : rateCheck db u (limitPerProduct env) (windowSecondsEff env)
          (aggregate ois) ois now with
      | some rl =>
        rw [hrc] at hrun
        have hout : out = .rateLimited rl := (congrArg Prod.fst hrun).symm
        intro ident hident
        rw [hout] at hident
        exact PurchaseOutcome.noConfusion hident
      | none =>
        rw [hrc] at hrun
        obtain ⟨ship, db1, _, _, _, _, heq⟩ := purchaseCommit_spec db u body ois now
        have hrun2 : purchaseCommit db u body ois now = (out, db2) := hrun
        rw [heq] at hrun2
        have hfst := congrArg Prod.fst hrun2
        intro ident hident
        rw [hident] at hfst
        exact PurchaseOutcome.noConfusion hfst
    constructor
    · constructor
      · intro hex
        obtain ⟨it, hmem, hnone⟩ := hex
        exact absurd hnone (hres it hmem)
      · intro hex
        obtain ⟨ident, hident⟩ := hex
        exact absurd hident (hnotpnf ident)
    · intro ident hident
      exact absurd hident (hnotpnf ident)

/-- C6 witness: a request mixing the resolvable corn reference with the
dangling slug `unobtainium` is rejected whole with a `Product not found`
naming that slug, and the (empty-ledger) database is untouched. -/
theorem product_not_found_atomic_c6_witness :
    (∃ ident, (purchase envDefault dbCorn 7 bodyMixed 0).1 = .productNotFound ident) ∧
    (purchase envDefault dbCorn 7 bodyMixed 0).2 = dbCorn := by
  have h := product_not_found_atomic_c6 envDefault dbCorn 7 bodyMixed 0
    (purchase envDefault dbCorn 7 bodyMixed 0).1
    (purchase envDefault dbCorn 7 bodyMixed 0).2 rfl (by decide) (by decide)
  have hex := (h.1).mp
    ⟨{ slug := some "unobtainium", productId := none, quantity := 1 }, by decide, by decide⟩
  obtain ⟨ident, hident⟩ := hex
  exact ⟨⟨ident, hident⟩, (h.2 ident hident).1⟩

/-- C2: under passing validation and resolution, the purchase fails with the
429 rate-limit response exactly when some aggregated requested product's
windowed prior quantity plus its requested quantity strictly exceeds the
limit; on that failure nothing is persisted and the response carries the
limit, the window, the offending product id with its snapshot slug, the
requested quantity and the windowed prior quantity, which indeed exceed the
limit together. -/
theorem rate_limited_iff_c2 (env : Env) (db : Db) (u : Nat) (body : PurchaseBody)
    (now : Int) (out : PurchaseOutcome) (db2 : Db) (ois : List ProcessingOrderItem)
    (hrun : purchase env db u body now = (out, db2))
    (hne : body.items.isEmpty = false)
    (hval : validateItems body.items 0 = none)
    (hres : buildOrderItems db.products body.items = .ok ois) :
    ((∃ rl, out = .rateLimited rl) ↔
      ∃ pq ∈ aggregate ois,
        windowSum db.orders db.orderItems u pq.1 now (windowSecondsEff env) + pq.2 >
          limitPerProduct env) ∧
    (∀ rl, out = .rateLimited rl →
      db2 = db ∧
      rl.limit = limitPerProduct env ∧
      rl.windowSeconds = windowSecondsEff env ∧
      (rl.productId, rl.requestedQuantity) ∈ aggregate ois ∧
      rl.recentPurchasedQuantity =
        windowSum db.orders db.orderItems u rl.productId now (windowSecondsEff env) ∧
      rl.recentPurchasedQuantity + rl.requestedQuantity > rl.limit ∧
      rl.slug = (ois.find? (fun x => x.product_id == rl.productId)).map (fun x => x.slug)) := by
  rw [purchase_eq_of_resolved env db u body now ois hne hval hres] at hrun
  cases hrc : rateCheck db u (limitPerProduct env) (windowSecondsEff env)
      (aggregate ois) ois now with
  | some rl0 =>
    rw [hrc] at hrun
    have hout : out = .rateLimited rl0 := (congrArg Prod.fst hrun).symm
    have hdb : db2 = db := (congrArg Prod.snd hrun).symm
    obtain ⟨hmem, hlim, hwin, hrec, hgt, hslug⟩ :=
      rateCheck_some_spec db u (limitPerProduct env) (windowSecondsEff env)
        (aggregate ois) ois now rl0 hrc
    constructor
    · constructor
      · intro _
        refine ⟨(rl0.productId, rl0.requestedQuantity), hmem, ?_⟩
        rw [← hrec] at *
        omega
      · intro _
        exact ⟨rl0, hout⟩
    · intro rl hrl
      rw [hout] at hrl
      have hrleq : rl0 = rl := by
        injection hrl with h2
      subst hrleq
      exact ⟨hdb, hlim, hwin, hmem, hrec, hgt, hslug⟩
  | none =>
    rw [hrc] at hrun
    obtain ⟨ship, db1, _, _, _, _, heq⟩ := purchaseCommit_spec db u body ois now
    have hrun2 : purchaseCommit db u body ois now = (out, db2) := hrun
    rw [heq] at hrun2
    have hfst := congrArg Prod.fst hrun2
    have hnone := (rateCheck_none_iff db u (limitPerProduct env) (windowSecondsEff env)
      (aggregate ois) ois now).mp hrc
    constructor
    · constructor
      · intro hex
        obtain ⟨rl, hrl⟩ := hex
        rw [hrl] at hfst
        exact PurchaseOutcome.noConfusion hfst
      · intro hex
        obtain ⟨pq, hmem, hgt⟩ := hex
        have := hnone pq hmem
        omega
    · intro rl hrl
      rw [hrl] at hfst
      exact PurchaseOutcome.noConfusion hfst

/-- C2 witness: with corn already bought at `t = 0`, a second request at
`t = 30` is rate limited because the only aggregated product (corn, id 1,
requested 1) has windowed prior 1 and 1 + 1 > 1; the 429 body carries limit
1, window 60, product 1 with slug corn, requested 1, prior 1. -/
theorem rate_limited_iff_c2_witness :
    ∃ rl, (purchase envDefault db2Corn 7 bodyCorn 30).1 = .rateLimited rl ∧
      rl.limit = 1 ∧ rl.windowSeconds = 60 ∧ rl.productId = 1 ∧
      rl.slug = some "corn" ∧ rl.requestedQuantity = 1 ∧
      rl.recentPurchasedQuantity = 1 ∧
      (purchase envDefault db2Corn 7 bodyCorn 30).2 = db2Corn := by
  have h := rate_limited_iff_c2 envDefault db2Corn 7 bodyCorn 30
    (purchase envDefault db2Corn 7 bodyCorn 30).1
    (purchase envDefault db2Corn 7 bodyCorn 30).2
    [{ product_id := 1, slug := "corn", title := "Golden Corn",
       price := "5.99", quantity := 1 }]
    rfl (by decide) (by decide) (by rfl)
  obtain ⟨rl, hrl⟩ := (h.1).mpr ⟨(1, 1), by decide, by decide⟩
  obtain ⟨hdb, hlim, hwin, hmem, hrec, hgt, hslug⟩ := h.2 rl hrl
  have hmem2 : (rl.productId, rl.requestedQuantity) ∈ [((1 : Nat), (1 : Int))] := hmem
  have hpq : rl.productId = 1 ∧ rl.requestedQuantity = 1 := by
    simpa using hmem2
  refine ⟨rl, hrl, ?_, ?_, hpq.1, ?_, hpq.2, ?_, hdb⟩
  · rw [hlim]
    decide
  · rw [hwin]
    decide
  · rw [hslug, hpq.1]
    decide
  · rw [hrec, hpq.1]
    decide

/-- C1: starting from an empty ledger, for every sequence of sequentially
committed purchase calls with nondecreasing timestamps, at the moment each
call returns — in particular at the moment any order is committed — every
user's summed order-line quantity for every product across orders whose
`created_at` lies within the trailing window (the new order's lines
included) is at most `limitPerProduct`. -/
theorem sliding_window_invariant_c1 (env : Env) (db0 : Db)
    (h0o : db0.orders = []) (h0i : db0.orderItems = [])
    (trace : List Attempt)
    (hsorted : trace.Pairwise (fun x y => x.now ≤ y.now))
    (pre : List Attempt) (a : Attempt) (post : List Attempt)
    (hsplit : trace = pre ++ a :: post) (U P : Nat) :
    windowSum (runTrace env db0 (pre ++ [a])).orders
      (runTrace env db0 (pre ++ [a])).orderItems U P a.now (windowSecondsEff env) ≤
      limitPerProduct env := by
  have hg : GoodDb db0 := by
    constructor
    · intro oi hoi
      rw [h0i] at hoi
      simp at hoi
    · intro o ho
      rw [h0o] at ho
      simp at ho
  have hk : ∀ x ∈ trace, WindowBounded env db0 x.now := by
    intro x _ U2 P2
    unfold windowSum
    rw [h0i]
    simp
    exact le_of_lt (parsePositiveOr_pos _ _ (by norm_num))
  exact runTrace_invariant env trace db0 hg hk hsorted pre a post hsplit U P

/-- C1 witness: the two-call trace buying corn at `t = 0` and `t = 30`
(the second call is rejected), evaluated at the second call's moment: user
7's windowed total for product 1 stays within the limit. -/
theorem sliding_window_invariant_c1_witness :
    windowSum (runTrace envDefault dbCorn
        [⟨7, bodyCorn, 0⟩, ⟨7, bodyCorn, 30⟩]).orders
      (runTrace envDefault dbCorn
        [⟨7, bodyCorn, 0⟩, ⟨7, bodyCorn, 30⟩]).orderItems
      7 1 30 (windowSecondsEff envDefault) ≤ limitPerProduct envDefault := by
  have h := sliding_window_invariant_c1 envDefault dbCorn rfl rfl
    [⟨7, bodyCorn, 0⟩, ⟨7, bodyCorn, 30⟩] (by decide)
    [⟨7, bodyCorn, 0⟩] ⟨7, bodyCorn, 30⟩ [] rfl 7 1
  exact h

end BobsCorn
